import Mathlib

/-!
Verification of the rope-and-pulley physics engine
(`src/services/physicsEngine.ts` together with the numeric constants of
`src/constants.ts`).

The engine is embedded shallowly over the rationals: every JavaScript
numeric operation used by the stepping code is one of `+ - * /`, absolute
value, sign, `min`/`max` and comparisons, all of which are exact on `ℚ`.
The single call to `Math.sqrt` (in the pendulum resolution of connected
loads) is abstracted as a function parameter `sqrtFn`; no verified
property depends on its value.  Division by zero, which JavaScript maps
to `Infinity`, is the `ℚ` convention `x / 0 = 0`; the only places where a
denominator can be zero (`pulleyRadius`, a broken-branch mass) are not
touched by any claim.  The two breadth-first traversals of the rope
graph, which the source runs as `while` loops over a mutable queue and a
visited `Set`, are embedded with an explicit fuel parameter; the
canonical fuel is proved sufficient (adding fuel never changes the
result), which is the termination argument for the loops.
-/

namespace PulleySim

/-- `GRAVITY` from `src/constants.ts` (9.81). -/
def GRAVITY : ℚ := 981 / 100

/-- `FRICTION_SCALE` from `src/constants.ts` (0.4). -/
def FRICTION_SCALE : ℚ := 2 / 5

/-- `AIR_RESISTANCE_SCALE` from `src/constants.ts` (3.0). -/
def AIR_RESISTANCE_SCALE : ℚ := 3

/-- `METERS_TO_PIXELS` from `src/constants.ts` (100). -/
def METERS_TO_PIXELS : ℚ := 100

/-- `RealityMode` from `src/types.ts`. -/
inductive RealityMode
  | IDEAL
  | REAL
deriving DecidableEq

/-- `Math.sign`: `1` on positives, `-1` on negatives, `0` at zero. -/
def sign (q : ℚ) : ℚ := if 0 < q then 1 else if q < 0 then -1 else 0

/-- `Math.abs`, written out so that every term of the embedding reduces
by plain unfolding. -/
def rabs (q : ℚ) : ℚ := if q < 0 then -q else q

/-- `Math.min`. -/
def rmin (a b : ℚ) : ℚ := if a ≤ b then a else b

/-- `Math.max`. -/
def rmax (a b : ℚ) : ℚ := if a ≤ b then b else a

/-- `AtwoodState` from `src/types.ts`, with every `number` field as `ℚ`. -/
structure AtwoodState where
  mass1 : ℚ
  mass2 : ℚ
  pulleyMass : ℚ
  pulleyRadius : ℚ
  frictionCoeff : ℚ
  totalRopeLength : ℚ
  initialY1 : ℚ
  initialY2 : ℚ
  ropeMaxTension : ℚ
  airResistance : ℚ
  isBroken : Bool
  y1 : ℚ
  y2 : ℚ
  velocity : ℚ
  angularVelocity : ℚ
  acceleration : ℚ
  tension1 : ℚ
  tension2 : ℚ
  time : ℚ
deriving DecidableEq

/-- `state.totalRopeLength || 5.0`: JavaScript replaces the falsy value `0`
by the default `5.0`. -/
def ropeLenOf (s : AtwoodState) : ℚ :=
  if s.totalRopeLength = 0 then 5 else s.totalRopeLength

/-- The broken branch of `updateAtwoodPhysics`: unconstrained gravity
drift, optional drag in REAL mode, position growth clamped at 4.5. -/
def atwoodBrokenStep (s : AtwoodState) (dt : ℚ) (mode : RealityMode) : AtwoodState :=
  let v1a := s.velocity + GRAVITY * dt
  let v2a := s.velocity + GRAVITY * dt
  let drag := (1/2) * s.airResistance * (v1a * v1a) * AIR_RESISTANCE_SCALE
  let v1 := if mode = RealityMode.REAL then v1a - (drag / s.mass1) * dt else v1a
  let v2 := if mode = RealityMode.REAL then v2a - (drag / s.mass2) * dt else v2a
  let newY1a := s.y1 + v1 * dt * (1/2)
  let newY2a := s.y2 + v2 * dt * (1/2)
  let newY1 := if 9/2 < newY1a then 9/2 else newY1a
  let newY2 := if 9/2 < newY2a then 9/2 else newY2a
  { s with y1 := newY1, y2 := newY2, tension1 := 0, tension2 := 0,
           velocity := 0, acceleration := 0 }

/-- `drivingForce = (mass2 - mass1) * GRAVITY`. -/
def atwoodDrivingForce (s : AtwoodState) : ℚ := (s.mass2 - s.mass1) * GRAVITY

/-- The balanced-mass centering force (only when `|mass2 - mass1| < 0.001`). -/
def atwoodCenteringForce (s : AtwoodState) : ℚ :=
  if rabs (s.mass2 - s.mass1) < 1/1000 then
    -(ropeLenOf s / 2 - s.y1) * (s.mass1 + s.mass2) * 5
  else 0

/-- `frictionForce = frictionCoeff * (m1+m2) * g * FRICTION_SCALE` when
`frictionCoeff > 0`, else `0`. -/
def atwoodFrictionForce (s : AtwoodState) : ℚ :=
  if 0 < s.frictionCoeff then
    s.frictionCoeff * (s.mass1 + s.mass2) * GRAVITY * FRICTION_SCALE
  else 0

/-- Net force after the static/kinetic friction policy and (REAL mode)
quadratic drag, exactly as the source computes it. -/
def atwoodNetForce (s : AtwoodState) (mode : RealityMode) : ℚ :=
  let nf0 := atwoodDrivingForce s + atwoodCenteringForce s
  let ff := atwoodFrictionForce s
  let nf1 :=
    if 1/1000 < rabs s.velocity then nf0 - sign s.velocity * ff
    else if rabs nf0 ≤ ff then 0
    else nf0 - sign nf0 * ff
  if mode = RealityMode.REAL ∧ 1/1000 < rabs s.velocity then
    nf1 - sign s.velocity * (s.airResistance * AIR_RESISTANCE_SCALE * (s.velocity * s.velocity))
  else nf1

/-- `totalInertialMass = mass1 + mass2 + 0.5 * pulleyMass` (the pulley
disk contributes `I / R² = 0.5 * M`). -/
def atwoodTotalInertialMass (s : AtwoodState) : ℚ :=
  s.mass1 + s.mass2 + (1/2) * s.pulleyMass

/-- Raw acceleration `netForce / totalInertialMass` before the
zero-crossing stiction correction. -/
def atwoodAccelRaw (s : AtwoodState) (mode : RealityMode) : ℚ :=
  atwoodNetForce s mode / atwoodTotalInertialMass s

/-- Raw updated velocity `velocity + acceleration * dt`. -/
def atwoodVelRaw (s : AtwoodState) (mode : RealityMode) (dt : ℚ) : ℚ :=
  s.velocity + atwoodAccelRaw s mode * dt

/-- The zero-crossing stiction test: moving, the velocity sign would flip,
and the net force is within the friction bound. -/
def atwoodStiction (s : AtwoodState) (mode : RealityMode) (dt : ℚ) : Bool :=
  decide (1/1000 < rabs s.velocity) &&
  decide (sign (atwoodVelRaw s mode dt) ≠ sign s.velocity) &&
  decide (rabs (atwoodNetForce s mode) ≤ atwoodFrictionForce s)

/-- Acceleration after the stiction correction (the value stored in the
output state and used for the tensions). -/
def atwoodAccel (s : AtwoodState) (mode : RealityMode) (dt : ℚ) : ℚ :=
  if atwoodStiction s mode dt then 0 else atwoodAccelRaw s mode

/-- New velocity after stiction correction and balanced-mass damping. -/
def atwoodNewVel (s : AtwoodState) (mode : RealityMode) (dt : ℚ) : ℚ :=
  (if atwoodStiction s mode dt then 0 else atwoodVelRaw s mode dt) *
  (if rabs (s.mass2 - s.mass1) < 1/1000 then 9/10 else 1)

/-- Candidate new position `y1 - newVelocity * dt`. -/
def atwoodNewY1 (s : AtwoodState) (mode : RealityMode) (dt : ℚ) : ℚ :=
  s.y1 - atwoodNewVel s mode dt * dt

/-- `updateAtwoodPhysics` from `src/services/physicsEngine.ts`. -/
def updateAtwoodPhysics (s : AtwoodState) (dt : ℚ) (mode : RealityMode) : AtwoodState :=
  if s.isBroken then atwoodBrokenStep s dt mode
  else
    let ropeLen := ropeLenOf s
    let newY1 := atwoodNewY1 s mode dt
    if newY1 < 1/5 then
      { s with velocity := 0, acceleration := 0, y1 := 1/5, y2 := ropeLen - 1/5 }
    else if ropeLen - 1/5 < newY1 then
      { s with velocity := 0, acceleration := 0, y1 := ropeLen - 1/5, y2 := 1/5 }
    else
      let a := atwoodAccel s mode dt
      let nv := atwoodNewVel s mode dt
      let t1 := s.mass1 * (GRAVITY + a)
      let t2 := s.mass2 * (GRAVITY - a)
      { s with
        y1 := newY1,
        y2 := ropeLen - newY1,
        velocity := nv,
        acceleration := a,
        tension1 := t1,
        tension2 := t2,
        angularVelocity := nv / s.pulleyRadius,
        isBroken := decide (mode = RealityMode.REAL ∧
          (s.ropeMaxTension < t1 ∨ s.ropeMaxTension < t2)),
        time := s.time + dt }

/-- Alias under the name the specification uses for the entry point. -/
def stepAtwood (s : AtwoodState) (dt : ℚ) (mode : RealityMode) : AtwoodState :=
  updateAtwoodPhysics s dt mode

/-!  ## Sandbox (block and tackle) data model, from `src/types.ts` -/

/-- `LoadObject` from `src/types.ts`. -/
structure LoadObject where
  id : String
  mass : ℚ
  color : String
  x : ℚ
  y : ℚ
  vx : ℚ
  vy : ℚ
deriving DecidableEq

/-- `Pulley` from `src/types.ts` (`vx` is optional there). -/
structure Pulley where
  id : String
  x : ℚ
  y : ℚ
  radius : ℚ
  vx : Option ℚ
deriving DecidableEq

/-- `Anchor` from `src/types.ts`. -/
structure Anchor where
  id : String
  x : ℚ
  y : ℚ
deriving DecidableEq

/-- The `type` discriminator of a rope segment. -/
inductive RopeType
  | direct
  | pulley
deriving DecidableEq

/-- `RopeSegment` from `src/types.ts`; the tangent side flags are
optional numbers. -/
structure RopeSegment where
  id : String
  fromId : String
  toId : String
  type : RopeType
  fromSide : Option ℚ
  toSide : Option ℚ
deriving DecidableEq

/-- The 3-step rope-route builder state (inert for physics). -/
structure RopeBuilderState where
  step : String
  firstId : Option String
  secondId : Option String
deriving DecidableEq

/-- `SandboxState` from `src/types.ts`. -/
structure SandboxState where
  fixedPulleys : List Pulley
  movablePulleys : List Pulley
  loads : List LoadObject
  anchors : List Anchor
  effortForce : ℚ
  friction : ℚ
  ropeMaxTension : ℚ
  airResistance : ℚ
  isBroken : Bool
  interactionMode : String
  ropeSegments : List RopeSegment
  ropeBuilderState : RopeBuilderState
  ropeConnectionStartId : Option String
  loadPosition : ℚ
  loadVelocity : ℚ
  isDragging : Bool
  selectedId : Option String
deriving DecidableEq

/-!  ## Topology resolver

`findConnectedLoads` and `getSide` are `while` loops over a queue and a
visited set in the source.  They are embedded with a fuel parameter; the
wrappers pass a canonical fuel that is proved sufficient below. -/

/-- All rope endpoint ids, with multiplicity. -/
def ropeEndIds (ropes : List RopeSegment) : List String :=
  ropes.foldr (fun r acc => r.fromId :: r.toId :: acc) []

/-- One guarded enqueue of `findConnectedLoads`: skip ids already
visited and ids failing the boundary check; otherwise mark visited and
push on the queue. -/
def bfsPush (boundary : String → Bool) (n : String)
    (vq : Finset String × List String) : Finset String × List String :=
  if n ∈ vq.1 then vq
  else if boundary n then vq
  else (insert n vq.1, vq.2 ++ [n])

/-- Processing of one rope segment for the node `curr`: the source
checks the `fromId` end and then the `toId` end, in that order. -/
def bfsStep (boundary : String → Bool) (curr : String)
    (vq : Finset String × List String) (r : RopeSegment) :
    Finset String × List String :=
  let vq1 := if r.fromId = curr then bfsPush boundary r.toId vq else vq
  if r.toId = curr then bfsPush boundary r.fromId vq1 else vq1

/-- The `while` loop of `findConnectedLoads`, with fuel. -/
def findConnectedLoadsAux (loads : List LoadObject) (ropes : List RopeSegment)
    (boundary : String → Bool) :
    Nat → List String → Finset String → List LoadObject → List LoadObject
  | 0, _, _, result => result
  | _ + 1, [], _, result => result
  | fuel + 1, curr :: qrest, visited, result =>
    let result2 :=
      match loads.find? (fun l => decide (l.id = curr)) with
      | some load => if result.any (fun x => decide (x = load)) then result
                     else result ++ [load]
      | none => result
    let vq := ropes.foldl (bfsStep boundary curr) (visited, qrest)
    findConnectedLoadsAux loads ropes boundary fuel vq.2 vq.1 result2

/-- `findConnectedLoads` with canonical fuel plus `extra`; the visited
set starts as the set of start ids and the queue as the start list,
exactly as in the source. -/
def findConnectedLoadsF (extra : Nat) (loads : List LoadObject)
    (ropes : List RopeSegment) (startIds : List String)
    (boundary : String → Bool) : List LoadObject :=
  findConnectedLoadsAux loads ropes boundary
    (4 * ropes.length + startIds.length + extra) startIds startIds.toFinset []

/-- The scan of one dequeued node in `getSide`: walk the incident ropes
in order; at the first fixed pulley met return its recorded tangent side
(default `-1` when the flag is absent); otherwise collect the load
neighbours to enqueue. -/
def getSideScan (fixedIds : List String) (loads : List LoadObject)
    (curr : String) : List RopeSegment → ℚ ⊕ List String
  | [] => .inr []
  | r :: rest =>
    if r.fromId = curr ∨ r.toId = curr then
      let other := if r.fromId = curr then r.toId else r.fromId
      if other ∈ fixedIds then
        .inl (match (if r.toId = other then r.toSide else r.fromSide) with
              | some sd => sd
              | none => -1)
      else
        match getSideScan fixedIds loads curr rest with
        | .inl sd => .inl sd
        | .inr ps =>
          .inr ((if loads.any (fun l => decide (l.id = other)) then [other] else []) ++ ps)
    else getSideScan fixedIds loads curr rest

/-- The `while` loop of `getSide`, with fuel; exhaustion of the queue
returns the neutral side `0`. -/
def getSideAux (fixedIds : List String) (loads : List LoadObject)
    (ropes : List RopeSegment) : Nat → List String → Finset String → ℚ
  | 0, _, _ => 0
  | _ + 1, [], _ => 0
  | fuel + 1, curr :: qrest, visited =>
    if curr ∈ visited then getSideAux fixedIds loads ropes fuel qrest visited
    else
      match getSideScan fixedIds loads curr ropes with
      | .inl sd => sd
      | .inr ps => getSideAux fixedIds loads ropes fuel (qrest ++ ps) (insert curr visited)

/-- `getSide` with canonical fuel plus `extra`. -/
def getSideF (extra : Nat) (fixedIds : List String) (loads : List LoadObject)
    (ropes : List RopeSegment) (startLoadId : String) : ℚ :=
  getSideAux fixedIds loads ropes
    ((ropes.length + 1) * (2 * ropes.length + 1) + 1 + extra) [startLoadId] ∅

/-- The topology partition of `updateSandboxPhysics`: `GroupA` is the
lifted side, `GroupB` the pulling side. -/
def sandboxGroupsF (extra : Nat) (s : SandboxState) :
    List LoadObject × List LoadObject :=
  let movableIds := s.movablePulleys.map (·.id)
  let fixedIds := s.fixedPulleys.map (·.id)
  let anchorIds := s.anchors.map (·.id)
  if 0 < movableIds.length then
    let gA := findConnectedLoadsF extra s.loads s.ropeSegments movableIds
      (fun n => fixedIds.contains n || anchorIds.contains n)
    let groupAIds := gA.map (·.id)
    let loadsConnectedToFixed := findConnectedLoadsF extra s.loads s.ropeSegments
      (fixedIds ++ anchorIds) (fun n => movableIds.contains n)
    (gA, loadsConnectedToFixed.filter (fun l => !(groupAIds.contains l.id)))
  else
    let connectedLoads := s.loads.filter
      (fun l => s.ropeSegments.any
        (fun r => decide (r.fromId = l.id) || decide (r.toId = l.id)))
    (connectedLoads.filter (fun l =>
        let sd := getSideF extra fixedIds s.loads s.ropeSegments l.id
        decide (sd = -1) || decide (sd = 0)),
     connectedLoads.filter (fun l =>
        decide (getSideF extra fixedIds s.loads s.ropeSegments l.id = 1)))

/-!  ## Sandbox force model -/

/-- The scalar quantities of the sandbox force model, in the order the
source computes them; `netForce` is the value after centering, friction
and drag, and `acceleration` is the value after the already-broken
zeroing. -/
structure SandboxForces where
  massLoad : ℚ
  massCounter : ℚ
  estimatedMA : ℚ
  forcePull : ℚ
  massPullInertia : ℚ
  forceLoad : ℚ
  frictionForce : ℚ
  isBalanced : Bool
  netForce : ℚ
  effectiveMass : ℚ
  acceleration : ℚ

/-- The force pipeline of `updateSandboxPhysics`, as a function of the
already-computed `GroupA`/`GroupB` partition. -/
def sandboxForcesOf (s : SandboxState) (mode : RealityMode)
    (groups : List LoadObject × List LoadObject) : SandboxForces :=
  let loadGroupA := groups.1
  let loadGroupB := groups.2
  let pulleyWeight : ℚ := if mode = RealityMode.IDEAL then 0 else 1/10
  let massLoad := loadGroupA.foldl (fun acc l => acc + l.mass) 0 +
    (s.movablePulleys.length : ℚ) * pulleyWeight
  let massCounter := loadGroupB.foldl (fun acc l => acc + l.mass) 0
  let estimatedMA : ℚ :=
    if 0 < s.movablePulleys.length then 2 * (s.movablePulleys.length : ℚ) else 1
  let pullPair : ℚ × ℚ :=
    if 0 < massCounter then (massCounter * GRAVITY, massCounter)
    else if loadGroupB.length = 0 then (s.effortForce, 0)
    else (0, 0)
  let forcePull := pullPair.1
  let massPullInertia := pullPair.2
  let forceLoad := massLoad * GRAVITY
  let totalWeight := forceLoad + forcePull
  let numPulleys := s.fixedPulleys.length + s.movablePulleys.length
  let frictionForce :=
    if 0 < s.friction then
      s.friction * totalWeight * FRICTION_SCALE *
        (if numPulleys = 0 then 1 else (numPulleys : ℚ))
    else 0
  let netForce0 := forcePull - forceLoad / estimatedMA
  let balancedPair : Bool × ℚ :=
    if 0 < massCounter ∧ (0 < loadGroupA.length ∨ 0 < s.movablePulleys.length) then
      if rabs netForce0 < 1/10 then
        let avgYA :=
          if 0 < loadGroupA.length then
            loadGroupA.foldl (fun acc l => acc + l.y) 0 / (loadGroupA.length : ℚ)
          else if 0 < s.movablePulleys.length then
            s.movablePulleys.foldl (fun acc p => acc + p.y) 0 / (s.movablePulleys.length : ℚ)
          else 0
        let avgYB :=
          if 0 < loadGroupB.length then
            loadGroupB.foldl (fun acc l => acc + l.y) 0 / (loadGroupB.length : ℚ)
          else 0
        if 0 < avgYA ∧ 0 < avgYB then (true, netForce0 + (avgYA - avgYB) * (1/10))
        else (true, netForce0)
      else (false, netForce0)
    else (false, netForce0)
  let isBalanced := balancedPair.1
  let netForce1 := balancedPair.2
  let netForce2 :=
    if 1/100 < rabs s.loadVelocity then netForce1 - sign s.loadVelocity * frictionForce
    else if rabs netForce1 < frictionForce then 0
    else netForce1 - sign netForce1 * frictionForce
  let netForce3 :=
    if mode = RealityMode.REAL ∧ 1/100 < rabs s.loadVelocity then
      netForce2 - sign s.loadVelocity *
        (s.airResistance * AIR_RESISTANCE_SCALE * 2 * (s.loadVelocity * s.loadVelocity))
    else netForce2
  let effectiveMass := massPullInertia + massLoad / (estimatedMA * estimatedMA) + 1
  let acc0 := netForce3 / effectiveMass
  { massLoad := massLoad, massCounter := massCounter, estimatedMA := estimatedMA,
    forcePull := forcePull, massPullInertia := massPullInertia, forceLoad := forceLoad,
    frictionForce := frictionForce, isBalanced := isBalanced, netForce := netForce3,
    effectiveMass := effectiveMass,
    acceleration := if s.isBroken then 0 else acc0 }

/-- The dynamic ceiling: lowest edge of the fixed pulleys plus a 5 px
margin, or 50 px when there is none. -/
def sandboxCeilingY (s : SandboxState) : ℚ :=
  match s.fixedPulleys with
  | [] => 50
  | p :: rest => rest.foldl (fun m q => rmax m (q.y + q.radius)) (p.y + p.radius) + 5

/-- Per-pulley update of a movable pulley: vertical transport (or
downward drift when broken) and tangent-based horizontal centering. -/
def updateMovablePulley (s : SandboxState) (isBrokenNow : Bool)
    (finalDispA ceilingY floorY dt : ℚ) (p : Pulley) : Pulley :=
  let nextY :=
    if isBrokenNow then rmin floorY (p.y + 100 * dt)
    else rmax ceilingY (rmin floorY (p.y + finalDispA))
  let sc := s.ropeSegments.foldl (fun (acc : ℚ × Nat) r =>
    let info : Option (String × ℚ × ℚ) :=
      if r.fromId = p.id then some (r.toId, r.fromSide.getD 0, r.toSide.getD 0)
      else if r.toId = p.id then some (r.fromId, r.toSide.getD 0, r.fromSide.getD 0)
      else none
    match info with
    | none => acc
    | some (otherId, mySide, otherSide) =>
      if otherId = "" then acc
      else
        let otherFixed := s.fixedPulleys.find? (fun fp => decide (fp.id = otherId))
        let otherAnchor := s.anchors.find? (fun a => decide (a.id = otherId))
        let otherMovable := s.movablePulleys.find? (fun mp => decide (mp.id = otherId))
        let otherY :=
          match otherFixed, otherAnchor, otherMovable with
          | some fp, _, _ => fp.y
          | none, some a, _ => a.y
          | none, none, some mp => mp.y
          | none, none, none => 9999
        if otherY < p.y then
          let anchorX :=
            match otherFixed, otherAnchor, otherMovable with
            | some fp, _, _ => fp.x + otherSide * (if fp.radius = 0 then 25 else fp.radius)
            | none, some a, _ => a.x
            | none, none, some mp => mp.x + otherSide * (if mp.radius = 0 then 25 else mp.radius)
            | none, none, none => 0
          let targetCenter := anchorX - mySide * (if p.radius = 0 then 25 else p.radius)
          (acc.1 + targetCenter, acc.2 + 1)
        else acc) (0, 0)
  let xv : ℚ × ℚ :=
    if 0 < sc.2 ∧ isBrokenNow = false then
      let targetX := sc.1 / (sc.2 : ℚ)
      let dx := targetX - p.x
      let v1 := p.vx.getD 0 + (12/10) * dx * dt
      let v2 := v1 * (95/100)
      (p.x + v2 * dt * 5, v2)
    else
      let v1 := p.vx.getD 0 * (98/100)
      (p.x + v1 * dt, v1)
  { p with x := xv.1, y := nextY, vx := some xv.2 }

/-- Per-load update: free fall with floor bounce when disconnected or
broken, otherwise vertical transport with the group displacement and
pendulum swing about the tangent pivot. -/
def updateLoad (sqrtFn : ℚ → ℚ) (s : SandboxState) (mode : RealityMode)
    (loadGroupA loadGroupB : List LoadObject) (isBrokenNow : Bool)
    (finalDispA finalDispB ceilingY floorY dt : ℚ)
    (updatedMovablePulleys : List Pulley) (load : LoadObject) : LoadObject :=
  let connectedRope := s.ropeSegments.find?
    (fun r => decide (r.fromId = load.id) || decide (r.toId = load.id))
  let isConnected := connectedRope.isSome && !isBrokenNow
  if isConnected = false then
    let vy1 := load.vy + GRAVITY * dt * 5
    let vy2 := if mode = RealityMode.REAL then vy1 * (99/100) else vy1
    let newY := load.y + vy2 * dt * METERS_TO_PIXELS
    if floorY ≤ newY then
      let vy3 := -vy2 * (3/10)
      let vy4 := if rabs vy3 < 1/2 then 0 else vy3
      let vx1 := load.vx * (9/10)
      let vx2 := if rabs vx1 < 1/10 then 0 else vx1
      { load with y := floorY, vy := vy4, vx := vx2, x := load.x + vx2 * dt }
    else
      { load with y := newY, vy := vy2, x := load.x + load.vx * dt }
  else
    let systemDispY :=
      if loadGroupA.any (fun l => decide (l.id = load.id)) then finalDispA
      else if loadGroupB.any (fun l => decide (l.id = load.id)) then finalDispB
      else 0
    let newY := rmax ceilingY (rmin floorY (load.y + systemDispY))
    let pivotPoint : Option (ℚ × ℚ) :=
      match connectedRope with
      | none => none
      | some cr =>
        let otherId := if cr.fromId = load.id then cr.toId else cr.fromId
        let otherFixed := s.fixedPulleys.find? (fun q => decide (q.id = otherId))
        let otherMovable := updatedMovablePulleys.find? (fun q => decide (q.id = otherId))
        let otherAnchor := s.anchors.find? (fun a => decide (a.id = otherId))
        let ropeSideAtPulley :=
          if cr.fromId = otherId then cr.fromSide.getD 0 else cr.toSide.getD 0
        match otherFixed, otherMovable, otherAnchor with
        | some fp, _, _ => some (fp.x + ropeSideAtPulley * fp.radius, fp.y)
        | none, some mp, _ => some (mp.x + ropeSideAtPulley * mp.radius, mp.y)
        | none, none, some a => some (a.x, a.y)
        | none, none, none => none
    let newVx : ℚ :=
      (match pivotPoint with
       | some piv =>
         if piv.2 < newY then
           let dx := load.x - piv.1
           let dy := load.y - piv.2
           let len := sqrtFn (dx * dx + dy * dy)
           if 0 < len then
             (load.vx + (-(GRAVITY * (5/2)) * (dx / len)) * dt) * (98/100)
           else load.vx
         else load.vx * (9/10)
       | none => load.vx * (9/10))
    { load with
      y := newY, x := load.x + newVx * dt * METERS_TO_PIXELS,
      vx := newVx, vy := 0 }

/-- The body of `updateSandboxPhysics` past the topology analysis, as a
function of the computed partition. -/
def updateSandboxPhysicsFromGroups (sqrtFn : ℚ → ℚ)
    (groups : List LoadObject × List LoadObject)
    (s : SandboxState) (dt : ℚ) (mode : RealityMode) : SandboxState :=
  let floorY : ℚ := 550
  let loadGroupA := groups.1
  let loadGroupB := groups.2
  let f := sandboxForcesOf s mode groups
  let newRopeVelocity0 := s.loadVelocity + f.acceleration * dt
  let newRopeVelocity1 :=
    if f.isBalanced then newRopeVelocity0 * (95/100) else newRopeVelocity0
  let velAcc : ℚ × ℚ :=
    if 1/100 < rabs s.loadVelocity ∧ sign newRopeVelocity1 ≠ sign s.loadVelocity then
      let staticDriveForce := f.forcePull - f.forceLoad / f.estimatedMA
      if rabs staticDriveForce ≤ f.frictionForce then (0, 0)
      else (newRopeVelocity1, f.acceleration)
    else (newRopeVelocity1, f.acceleration)
  let newRopeVelocity3 :=
    if 50 < velAcc.1 then 50 else if velAcc.1 < -50 then -50 else velAcc.1
  let deltaRope0 := newRopeVelocity3 * dt * METERS_TO_PIXELS
  let ceilingY := sandboxCeilingY s
  let dispA := -(deltaRope0 / f.estimatedMA)
  let dispB := deltaRope0
  let itemsAy := loadGroupA.map (·.y) ++ s.movablePulleys.map (·.y)
  let boundaryHit :=
    if s.isBroken then false
    else
      (itemsAy.any (fun y =>
        decide (dispA < 0 ∧ y + dispA < ceilingY) ||
        decide (0 < dispA ∧ floorY < y + dispA))) ||
      (loadGroupB.any (fun l =>
        decide (dispB < 0 ∧ l.y + dispB < ceilingY) ||
        decide (0 < dispB ∧ floorY < l.y + dispB)))
  let newRopeVelocity4 := if boundaryHit then 0 else newRopeVelocity3
  let deltaRope1 := if boundaryHit then 0 else deltaRope0
  let acceleration3 := if boundaryHit then 0 else velAcc.2
  let isBroken2 : Bool :=
    if mode = RealityMode.REAL ∧ s.isBroken = false then
      let staticTension := f.forceLoad / f.estimatedMA
      let dynamicTension := f.massLoad * rabs acceleration3
      let totalEstimatedTension := staticTension + dynamicTension + f.frictionForce * (1/2)
      decide (s.ropeMaxTension < totalEstimatedTension ∨ s.ropeMaxTension < f.forcePull)
    else s.isBroken
  let finalDispA := if boundaryHit || isBroken2 then 0 else -(deltaRope1 / f.estimatedMA)
  let finalDispB := if boundaryHit || isBroken2 then 0 else deltaRope1
  let updatedMovablePulleys := s.movablePulleys.map
    (updateMovablePulley s isBroken2 finalDispA ceilingY floorY dt)
  let updatedLoads := s.loads.map
    (updateLoad sqrtFn s mode loadGroupA loadGroupB isBroken2
      finalDispA finalDispB ceilingY floorY dt updatedMovablePulleys)
  { s with
    loadVelocity := if isBroken2 then 0 else newRopeVelocity4,
    loadPosition := s.loadPosition + (if isBroken2 then 0 else newRopeVelocity4 * dt),
    movablePulleys := updatedMovablePulleys,
    loads := updatedLoads,
    isBroken := isBroken2 }

/-- `updateSandboxPhysics` with `extra` fuel for the graph traversals. -/
def updateSandboxPhysicsF (extra : Nat) (sqrtFn : ℚ → ℚ)
    (s : SandboxState) (dt : ℚ) (mode : RealityMode) : SandboxState :=
  if s.isDragging then s
  else updateSandboxPhysicsFromGroups sqrtFn (sandboxGroupsF extra s) s dt mode

/-- `updateSandboxPhysics` from `src/services/physicsEngine.ts`. -/
def updateSandboxPhysics (sqrtFn : ℚ → ℚ) (s : SandboxState) (dt : ℚ)
    (mode : RealityMode) : SandboxState :=
  updateSandboxPhysicsF 0 sqrtFn s dt mode

/-- Alias under the name the specification uses for the entry point. -/
def stepSandbox (sqrtFn : ℚ → ℚ) (s : SandboxState) (dt : ℚ)
    (mode : RealityMode) : SandboxState :=
  updateSandboxPhysics sqrtFn s dt mode

/-!  ## Termination of the graph traversals

`PushExtends E vq vq2` says that a traversal step turned the visited
set / queue pair `vq` into `vq2` by appending a duplicate-free batch of
fresh ids drawn from `E` to both.  Every enqueue of `findConnectedLoads`
has this shape, which bounds the number of loop iterations. -/

def PushExtends (E : List String) (vq vq2 : Finset String × List String) : Prop :=
  ∃ f : List String, vq2.1 = vq.1 ∪ f.toFinset ∧ vq2.2 = vq.2 ++ f ∧
    f.Nodup ∧ ∀ x ∈ f, x ∉ vq.1 ∧ x ∈ E

lemma pushExtends_refl (E : List String) (vq : Finset String × List String) :
    PushExtends E vq vq :=
  ⟨[], by simp, by simp, by simp, by simp⟩

lemma pushExtends_mono {E E2 : List String} {vq vq2 : Finset String × List String}
    (hE : ∀ x ∈ E, x ∈ E2) (h : PushExtends E vq vq2) : PushExtends E2 vq vq2 := by
  obtain ⟨f, h1, h2, h3, h4⟩ := h
  exact ⟨f, h1, h2, h3, fun x hx => ⟨(h4 x hx).1, hE x (h4 x hx).2⟩⟩

lemma pushExtends_trans {E : List String} {vq vq1 vq2 : Finset String × List String}
    (h : PushExtends E vq vq1) (h2 : PushExtends E vq1 vq2) : PushExtends E vq vq2 := by
  obtain ⟨f, hf1, hf2, hf3, hf4⟩ := h
  obtain ⟨g, hg1, hg2, hg3, hg4⟩ := h2
  refine ⟨f ++ g, ?_, ?_, ?_, ?_⟩
  · rw [hg1, hf1, List.toFinset_append, Finset.union_assoc]
  · rw [hg2, hf2, List.append_assoc]
  · rw [List.nodup_append]
    refine ⟨hf3, hg3, fun x hx hxg => ?_⟩
    have hxv1 := (hg4 x hxg).1
    rw [hf1] at hxv1
    simp only [Finset.mem_union, List.mem_toFinset] at hxv1
    exact hxv1 (Or.inr hx)
  · intro x hx
    rcases List.mem_append.mp hx with hxf | hxg
    · exact hf4 x hxf
    · refine ⟨?_, (hg4 x hxg).2⟩
      have hxv1 := (hg4 x hxg).1
      rw [hf1] at hxv1
      simp only [Finset.mem_union, List.mem_toFinset] at hxv1
      exact fun hc => hxv1 (Or.inl hc)

lemma pushExtends_card {E : List String} {vq vq2 : Finset String × List String}
    (h : PushExtends E vq vq2) :
    ∃ k, vq2.1.card = vq.1.card + k ∧ vq2.2.length = vq.2.length + k := by
  obtain ⟨f, h1, h2, h3, h4⟩ := h
  refine ⟨f.length, ?_, by rw [h2, List.length_append]⟩
  rw [h1, Finset.card_union_of_disjoint, List.toFinset_card_of_nodup h3]
  rw [Finset.disjoint_right]
  intro a ha
  rw [List.mem_toFinset] at ha
  exact (h4 a ha).1

lemma pushExtends_subset {E : List String} {vq vq2 : Finset String × List String}
    {F : Finset String} (h : PushExtends E vq vq2) (hv : vq.1 ⊆ F)
    (hE : ∀ x ∈ E, x ∈ F) : vq2.1 ⊆ F := by
  obtain ⟨f, h1, _, _, h4⟩ := h
  rw [h1]
  intro a ha
  rcases Finset.mem_union.mp ha with hav | haf
  · exact hv hav
  · exact hE a ((h4 a (List.mem_toFinset.mp haf)).2)

lemma bfsPush_extends (b : String → Bool) (n : String)
    (vq : Finset String × List String) : PushExtends [n] vq (bfsPush b n vq) := by
  unfold bfsPush
  split_ifs with h1 h2
  · exact pushExtends_refl _ _
  · exact pushExtends_refl _ _
  · refine ⟨[n], ?_, rfl, List.nodup_singleton n, ?_⟩
    · simp [Finset.insert_eq, Finset.union_comm]
    · intro x hx
      rw [List.mem_singleton] at hx
      subst hx
      exact ⟨h1, List.mem_singleton_self _⟩

lemma ropeEndIds_cons (r : RopeSegment) (rest : List RopeSegment) :
    ropeEndIds (r :: rest) = r.fromId :: r.toId :: ropeEndIds rest := rfl

lemma length_ropeEndIds (ropes : List RopeSegment) :
    (ropeEndIds ropes).length = 2 * ropes.length := by
  induction ropes with
  | nil => rfl
  | cons r rest ih =>
    rw [ropeEndIds_cons, List.length_cons, List.length_cons, ih, List.length_cons]
    omega

lemma bfsStep_extends (b : String → Bool) (curr : String)
    (vq : Finset String × List String) (r : RopeSegment) :
    PushExtends [r.fromId, r.toId] vq (bfsStep b curr vq r) := by
  have hto : ∀ x ∈ [r.toId], x ∈ [r.fromId, r.toId] := by intro x hx; simp_all
  have hfrom : ∀ x ∈ [r.fromId], x ∈ [r.fromId, r.toId] := by intro x hx; simp_all
  have key : bfsStep b curr vq r =
      (if r.toId = curr then
        bfsPush b r.fromId (if r.fromId = curr then bfsPush b r.toId vq else vq)
      else (if r.fromId = curr then bfsPush b r.toId vq else vq)) := rfl
  rw [key]
  have h1 : PushExtends [r.fromId, r.toId] vq
      (if r.fromId = curr then bfsPush b r.toId vq else vq) := by
    split_ifs with h
    · exact pushExtends_mono hto (bfsPush_extends b r.toId vq)
    · exact pushExtends_refl _ _
  by_cases h2 : r.toId = curr
  · rw [if_pos h2]
    exact pushExtends_trans h1 (pushExtends_mono hfrom (bfsPush_extends b r.fromId _))
  · rw [if_neg h2]
    exact h1

lemma foldl_bfsStep_extends (b : String → Bool) (curr : String) :
    ∀ (ropes : List RopeSegment) (vq : Finset String × List String),
      PushExtends (ropeEndIds ropes) vq (ropes.foldl (bfsStep b curr) vq) := by
  intro ropes
  induction ropes with
  | nil => exact fun vq => pushExtends_refl _ _
  | cons r rest ih =>
    intro vq
    rw [List.foldl_cons]
    have hsub1 : ∀ x ∈ [r.fromId, r.toId], x ∈ ropeEndIds (r :: rest) := by
      intro x hx
      rw [ropeEndIds_cons]
      simp only [List.mem_cons] at hx ⊢
      tauto
    have hsub2 : ∀ x ∈ ropeEndIds rest, x ∈ ropeEndIds (r :: rest) := by
      intro x hx
      rw [ropeEndIds_cons]
      simp only [List.mem_cons]
      tauto
    exact pushExtends_trans
      (pushExtends_mono hsub1 (bfsStep_extends b curr vq r))
      (pushExtends_mono hsub2 (ih _))

lemma findConnectedLoadsAux_succ_stable (loads : List LoadObject)
    (ropes : List RopeSegment) (boundary : String → Bool) (E : Finset String)
    (hE : ∀ x ∈ ropeEndIds ropes, x ∈ E) :
    ∀ (fuel : Nat) (q : List String) (v : Finset String) (res : List LoadObject),
      v ⊆ E → 2 * E.card + q.length ≤ fuel + 2 * v.card →
      findConnectedLoadsAux loads ropes boundary (fuel + 1) q v res =
        findConnectedLoadsAux loads ropes boundary fuel q v res := by
  intro fuel
  induction fuel with
  | zero =>
    intro q v res hsub hcard
    have hvE : v.card ≤ E.card := Finset.card_le_card hsub
    cases q with
    | nil => rfl
    | cons a t =>
      exfalso
      rw [List.length_cons] at hcard
      omega
  | succ n ih =>
    intro q v res hsub hcard
    cases q with
    | nil => rfl
    | cons curr qrest =>
      rw [findConnectedLoadsAux, findConnectedLoadsAux]
      have hext := foldl_bfsStep_extends boundary curr ropes (v, qrest)
      obtain ⟨k, hkc, hkl⟩ := pushExtends_card hext
      have hkc2 : (List.foldl (bfsStep boundary curr) (v, qrest) ropes).1.card
          = v.card + k := hkc
      have hkl2 : (List.foldl (bfsStep boundary curr) (v, qrest) ropes).2.length
          = qrest.length + k := hkl
      apply ih
      · exact pushExtends_subset hext hsub hE
      · rw [List.length_cons] at hcard
        rw [hkc2, hkl2]
        omega

lemma findConnectedLoadsAux_extra_stable (loads : List LoadObject)
    (ropes : List RopeSegment) (boundary : String → Bool) (E : Finset String)
    (hE : ∀ x ∈ ropeEndIds ropes, x ∈ E) :
    ∀ (extra fuel : Nat) (q : List String) (v : Finset String) (res : List LoadObject),
      v ⊆ E → 2 * E.card + q.length ≤ fuel + 2 * v.card →
      findConnectedLoadsAux loads ropes boundary (fuel + extra) q v res =
        findConnectedLoadsAux loads ropes boundary fuel q v res := by
  intro extra
  induction extra with
  | zero => intro fuel q v res _ _; rfl
  | succ m ih =>
    intro fuel q v res hsub hcard
    have heq : fuel + (m + 1) = (fuel + m) + 1 := by omega
    rw [heq]
    rw [findConnectedLoadsAux_succ_stable loads ropes boundary E hE (fuel + m) q v res hsub
      (by omega)]
    exact ih fuel q v res hsub hcard

/-- Canonical-fuel sufficiency for `findConnectedLoads`: extra fuel never
changes the result, so the breadth-first loop terminates within the
canonical bound. -/
theorem findConnectedLoadsF_stable (extra : Nat) (loads : List LoadObject)
    (ropes : List RopeSegment) (startIds : List String) (boundary : String → Bool) :
    findConnectedLoadsF extra loads ropes startIds boundary =
      findConnectedLoadsF 0 loads ropes startIds boundary := by
  unfold findConnectedLoadsF
  have heq : 4 * ropes.length + startIds.length + extra =
      (4 * ropes.length + startIds.length + 0) + extra := by omega
  rw [heq]
  apply findConnectedLoadsAux_extra_stable loads ropes boundary
    (startIds.toFinset ∪ (ropeEndIds ropes).toFinset)
  · intro x hx
    exact Finset.mem_union_right _ (List.mem_toFinset.mpr hx)
  · exact Finset.subset_union_left
  · have h1 : (startIds.toFinset ∪ (ropeEndIds ropes).toFinset).card ≤
        startIds.toFinset.card + (ropeEndIds ropes).toFinset.card :=
      Finset.card_union_le _ _
    have h2 : (ropeEndIds ropes).toFinset.card ≤ (ropeEndIds ropes).length :=
      List.toFinset_card_le _
    have h3 : (ropeEndIds ropes).length = 2 * ropes.length := length_ropeEndIds ropes
    have h4 : startIds.toFinset.card ≤ startIds.length := List.toFinset_card_le _
    omega

lemma getSideScan_spec (fixedIds : List String) (loads : List LoadObject)
    (curr : String) :
    ∀ ropes : List RopeSegment,
      (∃ sd, getSideScan fixedIds loads curr ropes = .inl sd) ∨
      (∃ ps, getSideScan fixedIds loads curr ropes = .inr ps ∧
        ps.length ≤ ropes.length ∧ ∀ x ∈ ps, x ∈ ropeEndIds ropes) := by
  intro ropes
  induction ropes with
  | nil => exact Or.inr ⟨[], rfl, by simp, by simp⟩
  | cons r rest ih =>
    rw [getSideScan]
    by_cases hinc : r.fromId = curr ∨ r.toId = curr
    · rw [if_pos hinc]
      by_cases hfix : (if r.fromId = curr then r.toId else r.fromId) ∈ fixedIds
      · rw [if_pos hfix]
        exact Or.inl ⟨_, rfl⟩
      · rw [if_neg hfix]
        rcases ih with ⟨sd, hsd⟩ | ⟨ps, hps, hlen, hmem⟩
        · rw [hsd]
          exact Or.inl ⟨sd, rfl⟩
        · rw [hps]
          refine Or.inr ⟨_, rfl, ?_, ?_⟩
          · rw [List.length_append, List.length_cons]
            split_ifs <;> simp only [List.length_singleton, List.length_nil] <;> omega
          · intro x hx
            rw [ropeEndIds_cons]
            rcases List.mem_append.mp hx with hpush | hx2
            · have hother : x = (if r.fromId = curr then r.toId else r.fromId) := by
                by_cases hany : (loads.any fun l =>
                    decide (l.id = if r.fromId = curr then r.toId else r.fromId)) = true
                · rw [if_pos hany] at hpush
                  exact List.mem_singleton.mp hpush
                · rw [if_neg hany] at hpush
                  exact absurd hpush (List.not_mem_nil x)
              rw [hother]
              by_cases hc : r.fromId = curr
              · rw [if_pos hc]
                exact List.mem_cons_of_mem _ (List.mem_cons_self _ _)
              · rw [if_neg hc]
                exact List.mem_cons_self _ _
            · exact List.mem_cons_of_mem _ (List.mem_cons_of_mem _ (hmem x hx2))
    · rw [if_neg hinc]
      rcases ih with ⟨sd, hsd⟩ | ⟨ps, hps, hlen, hmem⟩
      · exact Or.inl ⟨sd, hsd⟩
      · refine Or.inr ⟨ps, hps, ?_, ?_⟩
        · rw [List.length_cons]
          omega
        · intro x hx
          rw [ropeEndIds_cons]
          exact List.mem_cons_of_mem _ (List.mem_cons_of_mem _ (hmem x hx))

lemma getSideAux_succ_stable (fixedIds : List String) (loads : List LoadObject)
    (ropes : List RopeSegment) (E : Finset String)
    (hE : ∀ x ∈ ropeEndIds ropes, x ∈ E) :
    ∀ (fuel : Nat) (q : List String) (v : Finset String),
      (∀ x ∈ q, x ∈ E) → v ⊆ E →
      (ropes.length + 1) * E.card + q.length ≤ fuel + (ropes.length + 1) * v.card →
      getSideAux fixedIds loads ropes (fuel + 1) q v =
        getSideAux fixedIds loads ropes fuel q v := by
  intro fuel
  induction fuel with
  | zero =>
    intro q v hq hsub hcard
    have hvE : v.card ≤ E.card := Finset.card_le_card hsub
    have hmul : (ropes.length + 1) * v.card ≤ (ropes.length + 1) * E.card :=
      Nat.mul_le_mul_left _ hvE
    cases q with
    | nil => rfl
    | cons a t =>
      exfalso
      rw [List.length_cons] at hcard
      omega
  | succ n ih =>
    intro q v hq hsub hcard
    cases q with
    | nil => rfl
    | cons curr qrest =>
      rw [getSideAux, getSideAux]
      by_cases hv : curr ∈ v
      · rw [if_pos hv, if_pos hv]
        apply ih
        · exact fun x hx => hq x (List.mem_cons_of_mem _ hx)
        · exact hsub
        · rw [List.length_cons] at hcard
          omega
      · rw [if_neg hv, if_neg hv]
        rcases getSideScan_spec fixedIds loads curr ropes with ⟨sd, hsd⟩ |
          ⟨ps, hps, hlen, hmem⟩
        · rw [hsd]
        · rw [hps]
          show getSideAux fixedIds loads ropes (n + 1) (qrest ++ ps) (insert curr v) =
            getSideAux fixedIds loads ropes n (qrest ++ ps) (insert curr v)
          have hcE : curr ∈ E := hq curr (List.mem_cons_self _ _)
          have hic : (insert curr v).card = v.card + 1 :=
            Finset.card_insert_of_not_mem hv
          apply ih
          · intro x hx
            rcases List.mem_append.mp hx with h | h
            · exact hq x (List.mem_cons_of_mem _ h)
            · exact hE x (hmem x h)
          · intro a ha
            rcases Finset.mem_insert.mp ha with h | h
            · rw [h]; exact hcE
            · exact hsub h
          · rw [List.length_cons] at hcard
            rw [List.length_append, hic, Nat.mul_add, Nat.mul_one]
            omega

lemma getSideAux_extra_stable (fixedIds : List String) (loads : List LoadObject)
    (ropes : List RopeSegment) (E : Finset String)
    (hE : ∀ x ∈ ropeEndIds ropes, x ∈ E) :
    ∀ (extra fuel : Nat) (q : List String) (v : Finset String),
      (∀ x ∈ q, x ∈ E) → v ⊆ E →
      (ropes.length + 1) * E.card + q.length ≤ fuel + (ropes.length + 1) * v.card →
      getSideAux fixedIds loads ropes (fuel + extra) q v =
        getSideAux fixedIds loads ropes fuel q v := by
  intro extra
  induction extra with
  | zero => intro fuel q v _ _ _; rfl
  | succ m ih =>
    intro fuel q v hq hsub hcard
    have heq : fuel + (m + 1) = (fuel + m) + 1 := by omega
    rw [heq]
    rw [getSideAux_succ_stable fixedIds loads ropes E hE (fuel + m) q v hq hsub (by omega)]
    exact ih fuel q v hq hsub hcard

/-- Canonical-fuel sufficiency for the `getSide` walk. -/
theorem getSideF_stable (extra : Nat) (fixedIds : List String)
    (loads : List LoadObject) (ropes : List RopeSegment) (startLoadId : String) :
    getSideF extra fixedIds loads ropes startLoadId =
      getSideF 0 fixedIds loads ropes startLoadId := by
  unfold getSideF
  have heq : (ropes.length + 1) * (2 * ropes.length + 1) + 1 + extra =
      ((ropes.length + 1) * (2 * ropes.length + 1) + 1 + 0) + extra := by omega
  rw [heq]
  apply getSideAux_extra_stable fixedIds loads ropes
    (insert startLoadId (ropeEndIds ropes).toFinset)
  · intro x hx
    exact Finset.mem_insert_of_mem (List.mem_toFinset.mpr hx)
  · intro x hx
    rw [List.mem_singleton] at hx
    rw [hx]
    exact Finset.mem_insert_self _ _
  · exact Finset.empty_subset _
  · have h1 : (insert startLoadId (ropeEndIds ropes).toFinset).card ≤
        (ropeEndIds ropes).toFinset.card + 1 := Finset.card_insert_le _ _
    have h2 : (ropeEndIds ropes).toFinset.card ≤ (ropeEndIds ropes).length :=
      List.toFinset_card_le _
    have h3 : (ropeEndIds ropes).length = 2 * ropes.length := length_ropeEndIds ropes
    have h4 : (ropes.length + 1) * (insert startLoadId (ropeEndIds ropes).toFinset).card ≤
        (ropes.length + 1) * (2 * ropes.length + 1) :=
      Nat.mul_le_mul_left _ (by omega)
    rw [List.length_singleton, Finset.card_empty, Nat.mul_zero]
    omega

/-- Fuel independence of the topology partition. -/
theorem sandboxGroupsF_stable (extra : Nat) (s : SandboxState) :
    sandboxGroupsF extra s = sandboxGroupsF 0 s := by
  simp only [sandboxGroupsF]
  split_ifs with h
  · simp only [findConnectedLoadsF_stable]
  · simp only [getSideF_stable]

/-!  ## Claim theorems -/

/-- C3: for both step functions, a state with `isBroken = true` steps
to a state with `isBroken = true`, for every `dt` and every mode: the
Intact → Broken transition is terminal inside the integrator. -/
theorem breakage_monotonic :
    (∀ (a : AtwoodState) (dt : ℚ) (mode : RealityMode), a.isBroken = true →
      (updateAtwoodPhysics a dt mode).isBroken = true) ∧
    (∀ (sqrtFn : ℚ → ℚ) (s : SandboxState) (dt : ℚ) (mode : RealityMode),
      s.isBroken = true → (updateSandboxPhysics sqrtFn s dt mode).isBroken = true) := by
  constructor
  · intro a dt mode h
    unfold updateAtwoodPhysics
    rw [if_pos h]
    simp [atwoodBrokenStep, h]
  · intro sqrtFn s dt mode h
    unfold updateSandboxPhysics updateSandboxPhysicsF
    by_cases hd : s.isDragging = true
    · rw [if_pos hd]
      exact h
    · rw [if_neg hd]
      simp [updateSandboxPhysicsFromGroups, h]

/-- Witness for C3 at a concrete broken Atwood state and a concrete
broken sandbox state. -/
theorem breakage_monotonic_witness :
    (updateAtwoodPhysics
      { mass1 := 2, mass2 := 3, pulleyMass := 1, pulleyRadius := 1/10,
        frictionCoeff := 0, totalRopeLength := 5, initialY1 := 5/2, initialY2 := 5/2,
        ropeMaxTension := 50, airResistance := 0, isBroken := true,
        y1 := 5/2, y2 := 5/2, velocity := 3, angularVelocity := 0,
        acceleration := 0, tension1 := 0, tension2 := 0, time := 0 } 1
      RealityMode.REAL).isBroken = true ∧
    (updateSandboxPhysics (fun _ => 0)
      { fixedPulleys := [], movablePulleys := [], loads := [], anchors := [],
        effortForce := 50, friction := 0, ropeMaxTension := 50, airResistance := 0,
        isBroken := true, interactionMode := "select", ropeSegments := [],
        ropeBuilderState := { step := "idle", firstId := none, secondId := none },
        ropeConnectionStartId := none, loadPosition := 50, loadVelocity := 0,
        isDragging := false, selectedId := none } 1 RealityMode.REAL).isBroken = true :=
  ⟨breakage_monotonic.1 _ 1 RealityMode.REAL rfl,
   breakage_monotonic.2 (fun _ => 0) _ 1 RealityMode.REAL rfl⟩

/-- C8: the step functions are total; in particular the breadth-first
traversals over the rope-segment graph terminate: running
`updateSandboxPhysics` with any extra fuel for its queue-driven
traversals returns the same state as the canonical fuel, for every
structurally valid input, every `dt` and every mode.  (`updateAtwoodPhysics`
is a loop-free total function by construction.) -/
theorem step_traversals_terminate (extra : Nat) (sqrtFn : ℚ → ℚ)
    (s : SandboxState) (dt : ℚ) (mode : RealityMode) :
    updateSandboxPhysicsF extra sqrtFn s dt mode =
      updateSandboxPhysics sqrtFn s dt mode := by
  unfold updateSandboxPhysics updateSandboxPhysicsF
  rw [sandboxGroupsF_stable]

/-- C9: with `isDragging = true` the sandbox step returns the input
state itself, for every `dt` and every mode. -/
theorem dragging_returns_state (sqrtFn : ℚ → ℚ) (s : SandboxState) (dt : ℚ)
    (mode : RealityMode) (h : s.isDragging = true) :
    updateSandboxPhysics sqrtFn s dt mode = s := by
  unfold updateSandboxPhysics updateSandboxPhysicsF
  rw [if_pos h]

/-- Witness for C9 at a concrete dragging state. -/
theorem dragging_returns_state_witness :
    updateSandboxPhysics (fun _ => 0)
      { fixedPulleys := [], movablePulleys := [], loads := [], anchors := [],
        effortForce := 50, friction := 0, ropeMaxTension := 50, airResistance := 0,
        isBroken := false, interactionMode := "select", ropeSegments := [],
        ropeBuilderState := { step := "idle", firstId := none, secondId := none },
        ropeConnectionStartId := none, loadPosition := 50, loadVelocity := 7,
        isDragging := true, selectedId := none } 1 RealityMode.REAL =
      { fixedPulleys := [], movablePulleys := [], loads := [], anchors := [],
        effortForce := 50, friction := 0, ropeMaxTension := 50, airResistance := 0,
        isBroken := false, interactionMode := "select", ropeSegments := [],
        ropeBuilderState := { step := "idle", firstId := none, secondId := none },
        ropeConnectionStartId := none, loadPosition := 50, loadVelocity := 7,
        isDragging := true, selectedId := none } :=
  dragging_returns_state (fun _ => 0) _ 1 RealityMode.REAL rfl

/-- C10: a broken Atwood state steps to a state with zero stored
velocity, acceleration and tensions, for every `dt` and every mode; the
broken-branch drift therefore always restarts from zero velocity and the
falling masses never accumulate speed across ticks. -/
theorem broken_atwood_outputs_zero (s : AtwoodState) (dt : ℚ) (mode : RealityMode)
    (h : s.isBroken = true) :
    (updateAtwoodPhysics s dt mode).velocity = 0 ∧
    (updateAtwoodPhysics s dt mode).acceleration = 0 ∧
    (updateAtwoodPhysics s dt mode).tension1 = 0 ∧
    (updateAtwoodPhysics s dt mode).tension2 = 0 := by
  unfold updateAtwoodPhysics
  rw [if_pos h]
  unfold atwoodBrokenStep
  exact ⟨rfl, rfl, rfl, rfl⟩

/-- Witness for C10 at a concrete broken state with nonzero stored
velocity and tensions. -/
theorem broken_atwood_outputs_zero_witness :
    (updateAtwoodPhysics
      { mass1 := 2, mass2 := 3, pulleyMass := 1, pulleyRadius := 1/10,
        frictionCoeff := 0, totalRopeLength := 5, initialY1 := 5/2, initialY2 := 5/2,
        ropeMaxTension := 50, airResistance := 0, isBroken := true,
        y1 := 5/2, y2 := 5/2, velocity := 3, angularVelocity := 0,
        acceleration := 2, tension1 := 8, tension2 := 9, time := 0 } (1/60)
      RealityMode.IDEAL).velocity = 0 ∧
    (updateAtwoodPhysics
      { mass1 := 2, mass2 := 3, pulleyMass := 1, pulleyRadius := 1/10,
        frictionCoeff := 0, totalRopeLength := 5, initialY1 := 5/2, initialY2 := 5/2,
        ropeMaxTension := 50, airResistance := 0, isBroken := true,
        y1 := 5/2, y2 := 5/2, velocity := 3, angularVelocity := 0,
        acceleration := 2, tension1 := 8, tension2 := 9, time := 0 } (1/60)
      RealityMode.IDEAL).acceleration = 0 ∧
    (updateAtwoodPhysics
      { mass1 := 2, mass2 := 3, pulleyMass := 1, pulleyRadius := 1/10,
        frictionCoeff := 0, totalRopeLength := 5, initialY1 := 5/2, initialY2 := 5/2,
        ropeMaxTension := 50, airResistance := 0, isBroken := true,
        y1 := 5/2, y2 := 5/2, velocity := 3, angularVelocity := 0,
        acceleration := 2, tension1 := 8, tension2 := 9, time := 0 } (1/60)
      RealityMode.IDEAL).tension1 = 0 ∧
    (updateAtwoodPhysics
      { mass1 := 2, mass2 := 3, pulleyMass := 1, pulleyRadius := 1/10,
        frictionCoeff := 0, totalRopeLength := 5, initialY1 := 5/2, initialY2 := 5/2,
        ropeMaxTension := 50, airResistance := 0, isBroken := true,
        y1 := 5/2, y2 := 5/2, velocity := 3, angularVelocity := 0,
        acceleration := 2, tension1 := 8, tension2 := 9, time := 0 } (1/60)
      RealityMode.IDEAL).tension2 = 0 :=
  broken_atwood_outputs_zero _ (1/60) RealityMode.IDEAL rfl

/-- C1 (Scenario A): for every intact Atwood state with
`mass1 = 2`, `mass2 = 3`, `pulleyMass = 1`, `frictionCoeff = 0`, stepped
with `dt = 0.016` in IDEAL mode and not hitting the position clamp, the
driving force is `9.81 N`, the total inertial mass is `5.5 kg`, and the
returned acceleration is `9.81 / 5.5 = 981/550 ≈ 1.7836 m/s²`. -/
theorem scenarioA_atwood (s : AtwoodState) (dt : ℚ)
    (h1 : s.isBroken = false) (h2 : s.mass1 = 2) (h3 : s.mass2 = 3)
    (h4 : s.pulleyMass = 1) (h5 : s.frictionCoeff = 0) (hdt : dt = 2/125)
    (hlo : ¬ atwoodNewY1 s RealityMode.IDEAL dt < 1/5)
    (hhi : ¬ ropeLenOf s - 1/5 < atwoodNewY1 s RealityMode.IDEAL dt) :
    atwoodDrivingForce s = 981/100 ∧
    atwoodTotalInertialMass s = 11/2 ∧
    (updateAtwoodPhysics s dt RealityMode.IDEAL).acceleration = 981/550 ∧
    rabs ((981 : ℚ)/550 - 17836/10000) < 1/10000 := by
  have hdf : atwoodDrivingForce s = 981/100 := by
    unfold atwoodDrivingForce GRAVITY
    rw [h2, h3]
    norm_num
  have hcf : atwoodCenteringForce s = 0 := by
    unfold atwoodCenteringForce
    rw [h2, h3]
    norm_num [rabs]
  have hff : atwoodFrictionForce s = 0 := by
    unfold atwoodFrictionForce
    rw [h5]
    norm_num
  have hmode : ¬ (RealityMode.IDEAL = RealityMode.REAL ∧ 1/1000 < rabs s.velocity) :=
    fun hc => by cases hc.1
  have hnf : atwoodNetForce s RealityMode.IDEAL = 981/100 := by
    simp only [atwoodNetForce]
    rw [hdf, hcf, hff, if_neg hmode]
    split_ifs with hv hz
    · norm_num
    · norm_num [rabs] at hz
    · norm_num
  have hti : atwoodTotalInertialMass s = 11/2 := by
    unfold atwoodTotalInertialMass
    rw [h2, h3, h4]
    norm_num
  have har : atwoodAccelRaw s RealityMode.IDEAL = 981/550 := by
    unfold atwoodAccelRaw
    rw [hnf, hti]
    norm_num
  have hst : atwoodStiction s RealityMode.IDEAL dt = false := by
    unfold atwoodStiction
    rw [hnf, hff]
    rw [show decide (rabs ((981 : ℚ)/100) ≤ 0) = false from by
      with_unfolding_all rfl]
    rw [Bool.and_false]
  have hacc : atwoodAccel s RealityMode.IDEAL dt = 981/550 := by
    unfold atwoodAccel
    rw [hst, har]
    norm_num
  refine ⟨hdf, hti, ?_, by norm_num [rabs]⟩
  simp only [updateAtwoodPhysics, h1, Bool.false_eq_true, if_false]
  rw [if_neg hlo, if_neg hhi]
  exact hacc

/-- The concrete Scenario A configuration, at rest in the middle of the
rope. -/
def atwoodA : AtwoodState :=
  { mass1 := 2, mass2 := 3, pulleyMass := 1, pulleyRadius := 1/10,
    frictionCoeff := 0, totalRopeLength := 5, initialY1 := 5/2, initialY2 := 5/2,
    ropeMaxTension := 50, airResistance := 0, isBroken := false,
    y1 := 5/2, y2 := 5/2, velocity := 0, angularVelocity := 0,
    acceleration := 0, tension1 := 0, tension2 := 0, time := 0 }

/-- Witness for C1 at the concrete Scenario A state. -/
theorem scenarioA_atwood_witness :
    atwoodDrivingForce atwoodA = 981/100 ∧
    atwoodTotalInertialMass atwoodA = 11/2 ∧
    (updateAtwoodPhysics atwoodA (2/125) RealityMode.IDEAL).acceleration = 981/550 ∧
    rabs ((981 : ℚ)/550 - 17836/10000) < 1/10000 :=
  scenarioA_atwood atwoodA (2/125) rfl rfl rfl rfl rfl rfl
    (by with_unfolding_all decide) (by with_unfolding_all decide)

/-- C2 (Scenario B): one movable and one fixed pulley, no
counterweight, `effortForce = 50`, a single rope-connected load of mass
`10` in `GroupA`, zero friction, zero rope velocity, intact: the force
model yields `MA = 2`, `EffectiveMass = 0 + 10/4 + 1 = 3.5`,
`NetForce = 50 - (10·9.81)/2 = 0.95` and acceleration
`0.95 / 3.5 = 19/70 ≈ 0.271 m/s²`. -/
theorem scenarioB_sandbox (s : SandboxState) (l : LoadObject)
    (hA : (sandboxGroupsF 0 s).1 = [l]) (hB : (sandboxGroupsF 0 s).2 = [])
    (hl : l.mass = 10) (hm : s.movablePulleys.length = 1)
    (hfx : s.fixedPulleys.length = 1) (he : s.effortForce = 50)
    (hf : s.friction = 0) (hv : s.loadVelocity = 0) (hb : s.isBroken = false) :
    (sandboxForcesOf s RealityMode.IDEAL (sandboxGroupsF 0 s)).estimatedMA = 2 ∧
    (sandboxForcesOf s RealityMode.IDEAL (sandboxGroupsF 0 s)).effectiveMass = 7/2 ∧
    (sandboxForcesOf s RealityMode.IDEAL (sandboxGroupsF 0 s)).netForce = 19/20 ∧
    (sandboxForcesOf s RealityMode.IDEAL (sandboxGroupsF 0 s)).acceleration = 19/70 ∧
    rabs ((19 : ℚ)/70 - 271/1000) < 1/1000 := by
  simp only [sandboxForcesOf, hA, hB, hl, hm, hfx, he, hf, hv, hb, GRAVITY,
    FRICTION_SCALE, AIR_RESISTANCE_SCALE, List.foldl_cons, List.foldl_nil,
    List.length_nil, List.length_cons, sign, rabs]
  norm_num

/-- The concrete Scenario B sandbox: load `l1` hangs from movable pulley
`m1`, whose rope runs over fixed pulley `f1`. -/
def sandboxB : SandboxState :=
  { fixedPulleys := [{ id := "f1", x := 300, y := 100, radius := 25, vx := none }],
    movablePulleys := [{ id := "m1", x := 300, y := 300, radius := 25, vx := none }],
    loads := [{ id := "l1", mass := 10, color := "red", x := 300, y := 400,
                vx := 0, vy := 0 }],
    anchors := [],
    effortForce := 50, friction := 0, ropeMaxTension := 50, airResistance := 0,
    isBroken := false, interactionMode := "select",
    ropeSegments :=
      [{ id := "r1", fromId := "l1", toId := "m1", type := RopeType.direct,
         fromSide := none, toSide := none },
       { id := "r2", fromId := "m1", toId := "f1", type := RopeType.pulley,
         fromSide := some (-1), toSide := some 1 }],
    ropeBuilderState := { step := "idle", firstId := none, secondId := none },
    ropeConnectionStartId := none, loadPosition := 50, loadVelocity := 0,
    isDragging := false, selectedId := none }

/-- The 10 kg load of the Scenario B sandbox. -/
def loadB : LoadObject :=
  { id := "l1", mass := 10, color := "red", x := 300, y := 400, vx := 0, vy := 0 }

/-- Witness for C2 at the concrete Scenario B sandbox. -/
theorem scenarioB_sandbox_witness :
    (sandboxForcesOf sandboxB RealityMode.IDEAL
      (sandboxGroupsF 0 sandboxB)).acceleration = 19/70 :=
  (scenarioB_sandbox sandboxB loadB (by with_unfolding_all decide)
    (by with_unfolding_all decide) rfl rfl rfl rfl rfl rfl rfl).2.2.2.1

/-- An intact Atwood state about to hit the upper position clamp: heavy
right mass, large stored velocity, `y1` just above the bound. -/
def atwoodClampCex : AtwoodState :=
  { mass1 := 1, mass2 := 5, pulleyMass := 0, pulleyRadius := 1/10,
    frictionCoeff := 0, totalRopeLength := 5, initialY1 := 1/4, initialY2 := 19/4,
    ropeMaxTension := 50, airResistance := 0, isBroken := false,
    y1 := 1/4, y2 := 19/4, velocity := 10, angularVelocity := 0,
    acceleration := 0, tension1 := 0, tension2 := 0, time := 0 }

/-- C5 counterexample: on a clamp tick the early return keeps the
stale input tensions and zeroes the acceleration, so the tension
identity fails on an intact tick with intact output: here the clamp at
`0.2` fires, the output tensions are the stale zeros, and
`tension1 - tension2 = 0` while `(m1-m2)·g + (m1+m2)·a = -39.24`. -/
theorem tension_identity_clamp_cex :
    atwoodClampCex.isBroken = false ∧
    (updateAtwoodPhysics atwoodClampCex (1/10) RealityMode.IDEAL).isBroken = false ∧
    (updateAtwoodPhysics atwoodClampCex (1/10) RealityMode.IDEAL).y1 = 1/5 ∧
    ¬ ((updateAtwoodPhysics atwoodClampCex (1/10) RealityMode.IDEAL).tension1 -
        (updateAtwoodPhysics atwoodClampCex (1/10) RealityMode.IDEAL).tension2 =
      (atwoodClampCex.mass1 - atwoodClampCex.mass2) * GRAVITY +
        (atwoodClampCex.mass1 + atwoodClampCex.mass2) *
          (updateAtwoodPhysics atwoodClampCex (1/10) RealityMode.IDEAL).acceleration) := by
  with_unfolding_all decide

/-- C5 amended: on every intact tick on which the position clamp
does not fire, the output satisfies
`tension1 - tension2 = (mass1 - mass2)·g + (mass1 + mass2)·acceleration`. -/
theorem tension_identity_no_clamp (s : AtwoodState) (dt : ℚ) (mode : RealityMode)
    (h1 : s.isBroken = false)
    (hlo : ¬ atwoodNewY1 s mode dt < 1/5)
    (hhi : ¬ ropeLenOf s - 1/5 < atwoodNewY1 s mode dt) :
    (updateAtwoodPhysics s dt mode).tension1 -
      (updateAtwoodPhysics s dt mode).tension2 =
    (s.mass1 - s.mass2) * GRAVITY +
      (s.mass1 + s.mass2) * (updateAtwoodPhysics s dt mode).acceleration := by
  simp only [updateAtwoodPhysics, h1, Bool.false_eq_true, if_false]
  rw [if_neg hlo, if_neg hhi]
  dsimp only
  ring

/-- Witness for the amended C5 at the concrete Scenario A state. -/
theorem tension_identity_no_clamp_witness :
    (updateAtwoodPhysics atwoodA (2/125) RealityMode.IDEAL).tension1 -
      (updateAtwoodPhysics atwoodA (2/125) RealityMode.IDEAL).tension2 =
    (atwoodA.mass1 - atwoodA.mass2) * GRAVITY +
      (atwoodA.mass1 + atwoodA.mass2) *
        (updateAtwoodPhysics atwoodA (2/125) RealityMode.IDEAL).acceleration :=
  tension_identity_no_clamp atwoodA (2/125) RealityMode.IDEAL rfl
    (by with_unfolding_all decide) (by with_unfolding_all decide)

/-- C6 counterexample: at `dt = 0` the intact branch recomputes the
tensions from the current acceleration instead of keeping the stored
fields, so `stepAtwood(s, 0, mode)` does not leave `tension1`
unchanged: on the Scenario A state the stored `tension1 = 0` becomes
`m1·(g + a) ≠ 0`. -/
theorem zero_dt_cex :
    ¬ ((updateAtwoodPhysics atwoodA 0 RealityMode.IDEAL).tension1 =
        atwoodA.tension1) := by
  with_unfolding_all decide

/-- C6 amended: at `dt = 0`, for an intact, strictly unbalanced
state whose `y1` is inside the clamp range and whose positions satisfy
the rope invariant `y2 = ropeLen - y1`, the step preserves `y1`, `y2`,
`velocity` and `time` (the tensions are recomputed, not preserved). -/
theorem zero_dt_preserves (s : AtwoodState) (mode : RealityMode)
    (h1 : s.isBroken = false)
    (h2 : ¬ rabs (s.mass2 - s.mass1) < 1/1000)
    (h3 : 1/5 ≤ s.y1) (h4 : s.y1 ≤ ropeLenOf s - 1/5)
    (h5 : s.y2 = ropeLenOf s - s.y1) :
    (updateAtwoodPhysics s 0 mode).y1 = s.y1 ∧
    (updateAtwoodPhysics s 0 mode).y2 = s.y2 ∧
    (updateAtwoodPhysics s 0 mode).velocity = s.velocity ∧
    (updateAtwoodPhysics s 0 mode).time = s.time := by
  have hvr : atwoodVelRaw s mode 0 = s.velocity := by
    unfold atwoodVelRaw
    ring
  have hstic : atwoodStiction s mode 0 = false := by
    unfold atwoodStiction
    rw [hvr]
    rw [show decide (sign s.velocity ≠ sign s.velocity) = false by simp]
    rw [Bool.and_false, Bool.false_and]
  have hnv : atwoodNewVel s mode 0 = s.velocity := by
    unfold atwoodNewVel
    rw [hstic, if_neg h2, hvr]
    norm_num
  have hny : atwoodNewY1 s mode 0 = s.y1 := by
    unfold atwoodNewY1
    ring
  have hlo : ¬ atwoodNewY1 s mode 0 < 1/5 := by rw [hny]; exact not_lt.mpr h3
  have hhi : ¬ ropeLenOf s - 1/5 < atwoodNewY1 s mode 0 := by
    rw [hny]; exact not_lt.mpr h4
  simp only [updateAtwoodPhysics, h1, Bool.false_eq_true, if_false]
  rw [if_neg hlo, if_neg hhi]
  dsimp only
  rw [hny, hnv, h5]
  exact ⟨rfl, rfl, rfl, by ring⟩

/-- Witness for the amended C6 at the concrete Scenario A state. -/
theorem zero_dt_preserves_witness :
    (updateAtwoodPhysics atwoodA 0 RealityMode.IDEAL).y1 = atwoodA.y1 ∧
    (updateAtwoodPhysics atwoodA 0 RealityMode.IDEAL).y2 = atwoodA.y2 ∧
    (updateAtwoodPhysics atwoodA 0 RealityMode.IDEAL).velocity = atwoodA.velocity ∧
    (updateAtwoodPhysics atwoodA 0 RealityMode.IDEAL).time = atwoodA.time :=
  zero_dt_preserves atwoodA RealityMode.IDEAL rfl
    (by with_unfolding_all decide) (by with_unfolding_all decide)
    (by with_unfolding_all decide) (by with_unfolding_all decide)

/-- Two loads joined by a single rope, with no pulley and no anchor
anywhere in the scene. -/
def sandboxFreePair : SandboxState :=
  { fixedPulleys := [], movablePulleys := [],
    loads := [{ id := "a", mass := 1, color := "red", x := 100, y := 400,
                vx := 0, vy := 0 },
              { id := "b", mass := 1, color := "blue", x := 200, y := 400,
                vx := 0, vy := 0 }],
    anchors := [],
    effortForce := 50, friction := 0, ropeMaxTension := 50, airResistance := 0,
    isBroken := false, interactionMode := "select",
    ropeSegments := [{ id := "r", fromId := "a", toId := "b",
                       type := RopeType.direct, fromSide := none, toSide := none }],
    ropeBuilderState := { step := "idle", firstId := none, secondId := none },
    ropeConnectionStartId := none, loadPosition := 50, loadVelocity := 0,
    isDragging := false, selectedId := none }

/-- C7 counterexample: the claim says a load with no path to any
pulley or anchor belongs to neither group, but the code only excludes
loads with no incident rope segment: in a scene with no pulleys and no
anchors at all, two loads joined by one rope (hence with no possible
path to a pulley or anchor) are both placed in `GroupA`, because the
exhausted side walk returns the neutral side `0`. -/
theorem topology_free_body_cex :
    sandboxFreePair.movablePulleys = [] ∧
    sandboxFreePair.fixedPulleys = [] ∧
    sandboxFreePair.anchors = [] ∧
    (sandboxGroupsF 0 sandboxFreePair).1.length = 2 ∧
    (getSideF 0 (sandboxFreePair.fixedPulleys.map (·.id)) sandboxFreePair.loads
      sandboxFreePair.ropeSegments "a") = 0 := by
  with_unfolding_all decide

/-- C7 amended: with no movable pulleys, a load of the scene is
placed in `GroupA` exactly when it has at least one incident rope
segment and its side walk returns `-1` or `0`, and in `GroupB` exactly
when it has an incident rope segment and the walk returns `1`; only a
load with no incident rope segment at all is left out of both groups. -/
theorem topology_side_partition (s : SandboxState) (l : LoadObject)
    (hmov : s.movablePulleys = []) (hl : l ∈ s.loads) :
    (l ∈ (sandboxGroupsF 0 s).1 ↔
      ((∃ r ∈ s.ropeSegments, r.fromId = l.id ∨ r.toId = l.id) ∧
        (getSideF 0 (s.fixedPulleys.map (·.id)) s.loads s.ropeSegments l.id = -1 ∨
         getSideF 0 (s.fixedPulleys.map (·.id)) s.loads s.ropeSegments l.id = 0))) ∧
    (l ∈ (sandboxGroupsF 0 s).2 ↔
      ((∃ r ∈ s.ropeSegments, r.fromId = l.id ∨ r.toId = l.id) ∧
        getSideF 0 (s.fixedPulleys.map (·.id)) s.loads s.ropeSegments l.id = 1)) := by
  simp only [sandboxGroupsF, hmov, List.map_nil, List.length_nil, lt_self_iff_false,
    if_false]
  constructor
  · rw [List.mem_filter]
    simp only [List.mem_filter, List.any_eq_true, Bool.or_eq_true, decide_eq_true_eq,
      hl, true_and]
  · rw [List.mem_filter]
    simp only [List.mem_filter, List.any_eq_true, Bool.or_eq_true, decide_eq_true_eq,
      hl, true_and]

/-- Witness for the amended C7: in the free-pair scene, load `a` is
rope-connected, its walk returns side `0`, and it is in `GroupA` and not
in `GroupB`. -/
theorem topology_side_partition_witness :
    ({ id := "a", mass := 1, color := "red", x := 100, y := 400, vx := 0, vy := 0 } ∈
        (sandboxGroupsF 0 sandboxFreePair).1 ↔
      ((∃ r ∈ sandboxFreePair.ropeSegments, r.fromId = "a" ∨ r.toId = "a") ∧
        (getSideF 0 (sandboxFreePair.fixedPulleys.map (·.id)) sandboxFreePair.loads
          sandboxFreePair.ropeSegments "a" = -1 ∨
         getSideF 0 (sandboxFreePair.fixedPulleys.map (·.id)) sandboxFreePair.loads
          sandboxFreePair.ropeSegments "a" = 0))) ∧
    ({ id := "a", mass := 1, color := "red", x := 100, y := 400, vx := 0, vy := 0 } ∈
        (sandboxGroupsF 0 sandboxFreePair).2 ↔
      ((∃ r ∈ sandboxFreePair.ropeSegments, r.fromId = "a" ∨ r.toId = "a") ∧
        getSideF 0 (sandboxFreePair.fixedPulleys.map (·.id)) sandboxFreePair.loads
          sandboxFreePair.ropeSegments "a" = 1)) :=
  topology_side_partition sandboxFreePair _ rfl
    (by with_unfolding_all decide)

/-- The trajectory of Atwood states produced by a sequence of
`(dt, mode)` steps, the start state included. -/
def atwoodTrajectory : AtwoodState → List (ℚ × RealityMode) → List AtwoodState
  | s, [] => [s]
  | s, p :: rest => s :: atwoodTrajectory (updateAtwoodPhysics s p.1 p.2) rest

lemma updateAtwood_y1_range (s : AtwoodState) (dt : ℚ) (mode : RealityMode)
    (h1 : s.isBroken = false) (h3 : 1/5 ≤ s.y1)
    (h4 : s.y1 ≤ s.totalRopeLength - 1/5) :
    1/5 ≤ (updateAtwoodPhysics s dt mode).y1 ∧
    (updateAtwoodPhysics s dt mode).y1 ≤
      (updateAtwoodPhysics s dt mode).totalRopeLength - 1/5 ∧
    (updateAtwoodPhysics s dt mode).totalRopeLength = s.totalRopeLength := by
  have hL : 2/5 ≤ s.totalRopeLength := by linarith
  have hL0 : ¬ s.totalRopeLength = 0 := by intro h; rw [h] at hL; norm_num at hL
  have hrl : ropeLenOf s = s.totalRopeLength := by
    unfold ropeLenOf
    rw [if_neg hL0]
  simp only [updateAtwoodPhysics, h1, Bool.false_eq_true, if_false]
  split_ifs with ha hb
  · dsimp only
    refine ⟨by norm_num, ?_, rfl⟩
    linarith
  · dsimp only
    rw [hrl]
    refine ⟨by linarith, by linarith, rfl⟩
  · dsimp only
    push_neg at ha hb
    refine ⟨ha, by linarith [hrl.le, hrl.ge], rfl⟩

/-- C4: starting from an intact state with `y1` inside
`[0.2, totalRopeLength - 0.2]`, along any sequence of steps on which
every produced state is intact, every state of the trajectory keeps
`y1` inside `[0.2, totalRopeLength - 0.2]`. -/
theorem boundary_clamp_invariant (s : AtwoodState) (steps : List (ℚ × RealityMode))
    (h3 : 1/5 ≤ s.y1) (h4 : s.y1 ≤ s.totalRopeLength - 1/5)
    (hintact : ∀ t ∈ atwoodTrajectory s steps, t.isBroken = false) :
    ∀ t ∈ atwoodTrajectory s steps,
      1/5 ≤ t.y1 ∧ t.y1 ≤ t.totalRopeLength - 1/5 := by
  induction steps generalizing s with
  | nil =>
    intro t ht
    rw [atwoodTrajectory, List.mem_singleton] at ht
    rw [ht]
    exact ⟨h3, h4⟩
  | cons p rest ih =>
    intro t ht
    rw [atwoodTrajectory, List.mem_cons] at ht
    have hs : s.isBroken = false := by
      apply hintact
      rw [atwoodTrajectory]
      exact List.mem_cons_self _ _
    obtain ⟨hr1, hr2, hr3⟩ := updateAtwood_y1_range s p.1 p.2 hs h3 h4
    rcases ht with ht | ht
    · rw [ht]
      exact ⟨h3, h4⟩
    · refine ih (updateAtwoodPhysics s p.1 p.2) hr1 hr2 ?_ t ht
      intro u hu
      apply hintact
      rw [atwoodTrajectory]
      exact List.mem_cons_of_mem _ hu

/-- Witness for C4: one concrete step from the Scenario A state stays in
range. -/
theorem boundary_clamp_invariant_witness :
    1/5 ≤ (updateAtwoodPhysics atwoodA (2/125) RealityMode.IDEAL).y1 ∧
    (updateAtwoodPhysics atwoodA (2/125) RealityMode.IDEAL).y1 ≤
      (updateAtwoodPhysics atwoodA (2/125) RealityMode.IDEAL).totalRopeLength - 1/5 :=
  boundary_clamp_invariant atwoodA [((2/125 : ℚ), RealityMode.IDEAL)]
    (by norm_num [atwoodA]) (by norm_num [atwoodA])
    (by
      intro t ht
      simp only [atwoodTrajectory, List.mem_cons, List.mem_singleton,
        List.not_mem_nil, or_false] at ht
      rcases ht with h | h
      · rw [h]
        rfl
      · rw [h]
        with_unfolding_all rfl)
    (updateAtwoodPhysics atwoodA (2/125) RealityMode.IDEAL)
    (by
      simp only [atwoodTrajectory, List.mem_cons, List.mem_singleton,
        List.not_mem_nil, or_false]
      exact Or.inr trivial)

end PulleySim
